import Mathlib

/-!
Verification of the `imageicc` repository: four walkers that extract an
embedded ICC profile from TIFF, PNG, JPEG and GIF containers.

The byte source (Go `io.ReadSeeker`) is modelled as a `List Nat` of bytes
together with an explicit position.  Reads that run past the end of the
list model `io.ReadFull` / `io.CopyN` failures (`EOF` / `ErrUnexpectedEOF`).
Seeks beyond the end succeed (as Go file seeks do); the following read then
fails.  Loops of the Go code are modelled with an explicit fuel parameter;
every loop iteration of the source consumes at least one input byte after a
successful read, so fuel `input.length + 1` is always sufficient on the
paths exercised here, and `outOfFuel` marks traces the Go code would keep
running (e.g. backwards seeks from corrupt segment lengths).
-/

deriving instance DecidableEq for Except

namespace Imageicc

/-- Byte order selector, mirroring `binarystruct.ByteOrder`. -/
inductive ByteOrder where
  | le
  | be
deriving DecidableEq, Repr

/-- Read `n` bytes starting at `pos`; `none` models an `io.ReadFull` /
`io.CopyN` error when fewer than `n` bytes remain.  Reading zero bytes
always succeeds, as in Go. -/
def readBytes (input : List Nat) (pos n : Nat) : Option (List Nat) :=
  if n = 0 then some []
  else if pos + n ≤ input.length then some ((input.drop pos).take n)
  else none

/-- Read one byte. -/
def readByte (input : List Nat) (pos : Nat) : Option Nat :=
  input.get? pos

/-- Decode two bytes as a 16-bit integer in the given byte order. -/
def decodeU16 (endian : ByteOrder) (b0 b1 : Nat) : Nat :=
  match endian with
  | .le => b0 + b1 * 256
  | .be => b0 * 256 + b1

/-- Read a 16-bit integer at `pos` in the given byte order. -/
def readU16 (input : List Nat) (endian : ByteOrder) (pos : Nat) : Option Nat :=
  match readByte input pos, readByte input (pos + 1) with
  | some b0, some b1 => some (decodeU16 endian b0 b1)
  | _, _ => none

/-- Decode four bytes as a 32-bit integer in the given byte order. -/
def decodeU32 (endian : ByteOrder) (b0 b1 b2 b3 : Nat) : Nat :=
  match endian with
  | .le => b0 + b1 * 256 + b2 * 65536 + b3 * 16777216
  | .be => b0 * 16777216 + b1 * 65536 + b2 * 256 + b3

/-- Read a 32-bit integer at `pos` in the given byte order. -/
def readU32 (input : List Nat) (endian : ByteOrder) (pos : Nat) : Option Nat :=
  match readByte input pos, readByte input (pos + 1),
        readByte input (pos + 2), readByte input (pos + 3) with
  | some b0, some b1, some b2, some b3 => some (decodeU32 endian b0 b1 b2 b3)
  | _, _, _, _ => none

/-- Serialize a 32-bit value to four bytes in the given byte order;
mirrors `binarystruct.Marshal` of a `uint32`. -/
def marshalU32 (endian : ByteOrder) (v : Nat) : List Nat :=
  match endian with
  | .le => [v % 256, v / 256 % 256, v / 65536 % 256, v / 16777216 % 256]
  | .be => [v / 16777216 % 256, v / 65536 % 256, v / 256 % 256, v % 256]

/-! ## TIFF walker (`tiff.go`) -/

/-- Error outcomes of the TIFF walker; names follow the specification's
error taxonomy (§7). -/
inductive TifErr where
  | invalidHeader
  | typeMismatch
  | eof
  | badTypeIndex  -- Go panic: `tifTypeSize[d.Type]` with `d.Type ≥ 13`
  | outOfFuel
deriving DecidableEq, Repr

/-- A TIFF directory entry, mirroring `tifDirEntry`. -/
structure TifDirEntry where
  tag : Nat
  type : Nat
  count : Nat
  value : Nat
deriving DecidableEq, Repr

/-- A TIFF image file directory, mirroring `tifIFD`. -/
structure TifIFD where
  numEntry : Nat
  dirEntry : List TifDirEntry
  offsetNextIFD : Nat
deriving DecidableEq, Repr

/-- Byte size of each TIF value type, mirroring `tifTypeSize`. -/
def tifTypeSize : List Nat :=
  [0, 1, 1, 2, 4, 8, 1, 1, 2, 4, 8, 4, 8]

/-- `(*tifDirEntry).fetchRawData`: resolve an entry's raw bytes.  If
`count * tifTypeSize[type] < 4` the bytes are the leading bytes of the
marshalled 32-bit `value` field and the source is not consulted;
otherwise `value` is a file offset that is seeked to and read from.
Returns the bytes together with the position of the source after the
call (unchanged on the inline path). -/
def fetchRawData (d : TifDirEntry) (endian : ByteOrder) (input : List Nat)
    (pos : Nat) : Except TifErr (List Nat × Nat) :=
  if h : d.type < tifTypeSize.length then
    let sz := d.count * tifTypeSize.get ⟨d.type, h⟩
    if sz < 4 then
      -- data fit in the `Value` field
      .ok ((marshalU32 endian d.value).take sz, pos)
    else
      -- `Value` is the file offset to the data
      match readBytes input d.value sz with
      | some b => .ok (b, d.value + sz)
      | none => .error .eof
  else
    .error .badTypeIndex

/-- `(*tifDirEntry).getBytes`: raw bytes of a byte-typed entry. -/
def getBytes (d : TifDirEntry) (endian : ByteOrder) (input : List Nat)
    (pos : Nat) : Except TifErr (List Nat × Nat) :=
  if d.type ≠ 1 ∧ d.type ≠ 6 ∧ d.type ≠ 2 ∧ d.type ≠ 7 then
    .error .typeMismatch
  else
    fetchRawData d endian input pos

/-- `(*tifDirEntry).getString`: the string (as its bytes) of an
ASCII-typed entry.  The source drops the final byte of the fetched
buffer whenever the buffer is longer than one byte. -/
def getString (d : TifDirEntry) (endian : ByteOrder) (input : List Nat)
    (pos : Nat) : Except TifErr (List Nat × Nat) :=
  if d.type ≠ 2 then
    .error .typeMismatch
  else
    match fetchRawData d endian input pos with
    | .error e => .error e
    | .ok (buf, pos1) =>
      if buf.length > 1 then .ok (buf.dropLast, pos1) else .ok (buf, pos1)

/-- Read `n` consecutive 12-byte directory entries starting at `pos`. -/
def readEntries (input : List Nat) (endian : ByteOrder) :
    Nat → Nat → Except TifErr (List TifDirEntry)
  | 0, _ => .ok []
  | n + 1, pos =>
    match readU16 input endian pos, readU16 input endian (pos + 2),
          readU32 input endian (pos + 4), readU32 input endian (pos + 8) with
    | some tag, some ty, some cnt, some v =>
      match readEntries input endian n (pos + 12) with
      | .ok rest => .ok (⟨tag, ty, cnt, v⟩ :: rest)
      | .error e => .error e
    | _, _, _, _ => .error .eof

/-- Read one IFD block at `pos`: entry count, entries, next-IFD offset.
Also returns the source position after the block. -/
def readSingleIFD (input : List Nat) (endian : ByteOrder) (pos : Nat) :
    Except TifErr (TifIFD × Nat) :=
  match readU16 input endian pos with
  | none => .error .eof
  | some n =>
    match readEntries input endian n (pos + 2) with
    | .error e => .error e
    | .ok entries =>
      match readU32 input endian (pos + 2 + 12 * n) with
      | none => .error .eof
      | some next => .ok (⟨n, entries, next⟩, pos + 2 + 12 * n + 4)

/-- The IFD-chain loop of `LoadICCfromTIFF` (tiff.go lines 238-257).
After appending a freshly read IFD `lfd` to the accumulator `ifd`, the
source advances with `ifdOffset = ifd.OffsetNextIFD` — the accumulator's
field, which is never assigned and stays at its zero value — so this
mirrors that exactly.  Returns the flattened IFD and the final source
position. -/
def readIFDs (input : List Nat) (endian : ByteOrder) :
    Nat → TifIFD → Nat → Nat → Except TifErr (TifIFD × Nat)
  | 0, _, _, _ => .error .outOfFuel
  | fuel + 1, ifd, ifdOffset, pos =>
    if ifdOffset = 0 then .ok (ifd, pos)
    else
      match readSingleIFD input endian ifdOffset with
      | .error e => .error e
      | .ok (lfd, pos1) =>
        let ifd1 : TifIFD :=
          ⟨ifd.numEntry + lfd.numEntry, ifd.dirEntry ++ lfd.dirEntry,
           ifd.offsetNextIFD⟩
        readIFDs input endian fuel ifd1 ifd1.offsetNextIFD pos1

/-- Scan the flattened entry list for tag 0x8773 (`TIFFTAG_ICCPROFILE`). -/
def scanForICCTag (entries : List TifDirEntry) (endian : ByteOrder)
    (input : List Nat) (pos : Nat) : Except TifErr (Option (List Nat)) :=
  match entries with
  | [] => .ok none
  | d :: rest =>
    if d.tag = 0x8773 then
      match getBytes d endian input pos with
      | .error e => .error e
      | .ok (b, _) => .ok (some b)
    else
      scanForICCTag rest endian input pos

/-- `LoadICCfromTIFF`: parse the header, read the IFD chain, scan for the
ICC tag.  `none` models the Go `nil, nil` "no profile" result. -/
def loadICCfromTIFF (input : List Nat) : Except TifErr (Option (List Nat)) :=
  match readByte input 0, readByte input 1 with
  | some c0, some c1 =>
    let endianOpt : Option ByteOrder :=
      if c0 = 0x49 ∧ c1 = 0x49 then some .le
      else if c0 = 0x4d ∧ c1 = 0x4d then some .be
      else none
    match endianOpt with
    | none => .error .invalidHeader
    | some endian =>
      match readU16 input endian 2, readU32 input endian 4 with
      | some magic, some offsetIfd =>
        if magic ≠ 42 then .error .invalidHeader
        else
          match readIFDs input endian (input.length + 1) ⟨0, [], 0⟩ offsetIfd 8 with
          | .error e => .error e
          | .ok (ifd, pos1) => scanForICCTag ifd.dirEntry endian input pos1
      | _, _ => .error .eof
  | _, _ => .error .eof

/-! ## JPEG walker (`jpg.go`) -/

/-- Error outcomes of the JPEG walker; names follow the specification's
error taxonomy (§7). -/
inductive JpgErr where
  | invalidHeader
  | eof
  | invalidSegment
  | segmentCountMismatch
  | segmentOrderMismatch
  | multipleFrameHeaders
  | missingFrameHeader
  | badScanLength
  | outOfFuel
deriving DecidableEq, Repr

/-- The 11-byte literal signature `ICC_PROFILE`. -/
def iccProfileSig : List Nat :=
  [0x49, 0x43, 0x43, 0x5f, 0x50, 0x52, 0x4f, 0x46, 0x49, 0x4c, 0x45]

/-- The marker-alignment scan of `LoadICCfromJPG` (the inner
`for buf[0] != 0xff` loop): starting from a two-byte window `(b0, b1)`
with further bytes `rest`, slide one byte at a time until the first byte
of the window is `0xff`; the second byte is the marker.  Returns the
marker and the number of extra bytes consumed, `none` on end of input. -/
def alignScan : Nat → Nat → List Nat → Option (Nat × Nat)
  | b0, b1, rest =>
    if b0 = 0xff then some (b1, 0)
    else
      match rest with
      | [] => none
      | c :: rest1 =>
        match alignScan b1 c rest1 with
        | none => none
        | some (m, k) => some (m, k + 1)

/-- The entropy-coded-data scan of `skipSOS`: with previous byte `prev`,
read bytes one at a time; stop when the previous byte is `0xff` and the
current byte is non-zero (`0xff 0x00` is stuffed entropy data, not a
marker).  Returns the number of bytes read, `none` on end of input. -/
def sosScanL : Nat → List Nat → Option Nat
  | _, [] => none
  | prev, c :: rest =>
    if prev = 0xff ∧ c ≠ 0 then some 1
    else
      match sosScanL c rest with
      | none => none
      | some k => some (k + 1)

/-- A relative seek whose error the Go code discards: a seek to a
negative absolute position fails inside Go and leaves the position
unchanged. -/
def seekCur (pos : Nat) (delta : Int) : Nat :=
  if (pos : Int) + delta < 0 then pos else ((pos : Int) + delta).toNat

/-- `skipSOS`: validate the scan header, read it, then scan the
entropy-coded data for the next marker boundary.  Returns the byte count
`readSz` and the absolute position the source is seeked back to (two
bytes before the end of the scan, i.e. at the next marker's `0xff`). -/
def skipSOS (input : List Nat) (pos : Nat) (numComponents : Nat)
    (headerLen : Int) : Except JpgErr (Nat × Nat) :=
  if numComponents = 0 then .error .missingFrameHeader
  else if headerLen < 6 ∨ 4 + 2 * (numComponents : Int) < headerLen ∨
      headerLen % 2 ≠ 0 then .error .badScanLength
  else
    let h := headerLen.toNat
    match readBytes input pos h with
    | none => .error .eof
    | some _ =>
      match sosScanL 0 (input.drop (pos + h)) with
      | none => .error .eof
      | some k => .ok (h + k - 2, pos + (h + k - 2))

/-- The index/count validation run on every recognized ICC APP2 segment
(jpg source lines 250-261): record the declared total while the running
total is zero, then require the declared total to match and the chunk
index to be exactly one more than the previous index.  Returns the
updated running total. -/
def app2ICCCheck (iccIndexMax iccLastIndex idx count : Nat) :
    Except JpgErr Nat :=
  let newMax := if iccIndexMax = 0 then count else iccIndexMax
  if newMax ≠ count then .error .segmentCountMismatch
  else if idx ≠ iccLastIndex + 1 then .error .segmentOrderMismatch
  else .ok newMax

/-- The SOF0/SOF1/SOF2 dispatch (jpg source lines 287-301): a frame
header while `numComponents` is already non-zero is an error; otherwise
the component count is derived from the payload length, with an
unrecognized length leaving it at zero. -/
def processSOF (numComponents : Nat) (segLen : Int) : Except JpgErr Nat :=
  if numComponents ≠ 0 then .error .multipleFrameHeaders
  else .ok (if segLen = 9 then 1
       else if segLen = 15 then 3
       else if segLen = 18 then 4
       else 0)

/-- Mutable state of the `LoadICCfromJPG` segment loop. -/
structure JpgState where
  pos : Nat
  iccData : List Nat
  iccLastIndex : Nat
  iccIndexMax : Nat
  numComponents : Nat
deriving DecidableEq, Repr

/-- The segment loop of `LoadICCfromJPG`.  One fuel unit per iteration;
`.ok none` models the Go `nil, nil` results (end of image, or an
empty accumulated profile). -/
def jpgLoop (input : List Nat) : Nat → JpgState → Except JpgErr (Option (List Nat))
  | 0, _ => .error .outOfFuel
  | fuel + 1, st =>
    match readByte input st.pos, readByte input (st.pos + 1) with
    | some b0, some b1 =>
      match alignScan b0 b1 (input.drop (st.pos + 2)) with
      | none => .error .eof
      | some (marker, k) =>
        let pos1 := st.pos + 2 + k
        if marker = 0xd9 then .ok none
        else if 0xd0 ≤ marker ∧ marker ≤ 0xd7 then
          jpgLoop input fuel { st with pos := pos1 }
        else
          match readByte input pos1, readByte input (pos1 + 1) with
          | some l0, some l1 =>
            let segLen : Int := ((l0 * 256 + l1 : Nat) : Int) - 2
            let pos2 := pos1 + 2
            if marker = 0xe0 then
              -- APP0: possible JFIF header
              if segLen > 5 then
                match readBytes input pos2 5 with
                | none => .error .eof
                | some sig =>
                  if sig ≠ [0x4a, 0x46, 0x49, 0x46, 0x00] then
                    .error .invalidSegment
                  else
                    let segLen1 := segLen - 5
                    let pos3 := pos2 + 5
                    jpgLoop input fuel { st with
                      pos := if segLen1 > 0 then seekCur pos3 segLen1 else pos3 }
              else jpgLoop input fuel { st with pos := pos2 }
            else if marker = 0xe2 then
              -- APP2: may contain a chunk of the ICC profile
              if segLen ≥ 14 then
                match readBytes input pos2 14 with
                | none => .error .eof
                | some hdr =>
                  let segLen1 := segLen - 14
                  let pos3 := pos2 + 14
                  if hdr.take 11 = iccProfileSig then
                    let idx := (hdr.get? 12).getD 0
                    let count := (hdr.get? 13).getD 0
                    match app2ICCCheck st.iccIndexMax st.iccLastIndex idx count with
                    | .error e => .error e
                    | .ok newMax =>
                      match readBytes input pos3 segLen1.toNat with
                      | none => .error .eof
                      | some chunk =>
                        let data1 := st.iccData ++ chunk
                        let last1 := st.iccLastIndex + 1
                        if last1 = newMax then
                          .ok (if data1.length = 0 then none else some data1)
                        else
                          -- the trailing `if segLen > 0` skip still runs with
                          -- the same `segLen`, seeking past the copied
                          -- payload a second time
                          let pos4 := pos3 + segLen1.toNat
                          jpgLoop input fuel { st with
                            pos := if segLen1 > 0 then seekCur pos4 segLen1 else pos4,
                            iccData := data1,
                            iccLastIndex := last1,
                            iccIndexMax := newMax }
                  else
                    jpgLoop input fuel { st with
                      pos := if segLen1 > 0 then seekCur pos3 segLen1 else pos3 }
              else
                jpgLoop input fuel { st with
                  pos := if segLen > 0 then seekCur pos2 segLen else pos2 }
            else if marker = 0xc0 ∨ marker = 0xc1 ∨ marker = 0xc2 then
              match processSOF st.numComponents segLen with
              | .error e => .error e
              | .ok nc1 =>
                jpgLoop input fuel { st with
                  pos := seekCur pos2 segLen, numComponents := nc1 }
            else if marker = 0xda then
              match skipSOS input pos2 st.numComponents segLen with
              | .error e => .error e
              | .ok (_, pos3) => jpgLoop input fuel { st with pos := pos3 }
            else
              jpgLoop input fuel { st with pos := seekCur pos2 segLen }
          | _, _ => .error .eof
    | _, _ => .error .eof

/-- `LoadICCfromJPG`: check the SOI marker, then run the segment loop. -/
def loadICCfromJPG (input : List Nat) : Except JpgErr (Option (List Nat)) :=
  match readByte input 0, readByte input 1 with
  | some b0, some b1 =>
    if b0 = 0xff ∧ b1 = 0xd8 then
      jpgLoop input (input.length + 1) ⟨2, [], 0, 0, 0⟩
    else .error .invalidHeader
  | _, _ => .error .eof

/-! ## GIF walker (`gif.go`) -/

/-- Error outcomes of the GIF walker; names follow the specification's
error taxonomy (§7). -/
inductive GifErr where
  | invalidHeader
  | invalidSegment
  | unknownBlockType
  | eof
  | outOfFuel
deriving DecidableEq, Repr

/-- The recognized application identifier and auth code,
`"ICCRGBG1"` followed by `"012"`. -/
def gifAppICCId : List Nat :=
  [0x49, 0x43, 0x43, 0x52, 0x47, 0x42, 0x47, 0x31, 0x30, 0x31, 0x32]

/-- `readBlock`: read one length-prefixed sub-block.  A zero length
yields an empty block (Go returns a nil slice). -/
def readBlockG (input : List Nat) (pos : Nat) :
    Except GifErr (List Nat × Nat) :=
  match readByte input pos with
  | none => .error .eof
  | some sz =>
    if sz = 0 then .ok ([], pos + 1)
    else
      match readBytes input (pos + 1) sz with
      | none => .error .eof
      | some b => .ok (b, pos + 1 + sz)

/-- The loop of `readBlocks`: concatenate length-prefixed sub-blocks
until a zero-length terminator.  Returns `none` for an empty
concatenation (Go nil-normalizes the buffer). -/
def readBlocksF (input : List Nat) :
    Nat → Nat → List Nat → Except GifErr (Option (List Nat) × Nat)
  | 0, _, _ => .error .outOfFuel
  | fuel + 1, pos, acc =>
    match readByte input pos with
    | none => .error .eof
    | some sz =>
      if sz = 0 then
        .ok ((if acc.length = 0 then none else some acc), pos + 1)
      else
        match readBytes input (pos + 1) sz with
        | none => .error .eof
        | some b => readBlocksF input fuel (pos + 1 + sz) (acc ++ b)

/-- `readBlocks` with its always-sufficient fuel (each iteration reads
at least one byte of the input). -/
def readBlocks (input : List Nat) (pos : Nat) :
    Except GifErr (Option (List Nat) × Nat) :=
  readBlocksF input (input.length + 1) pos []

/-- The loop of `skipBlocks`: skip length-prefixed sub-blocks by seeking
until a zero-length terminator.  The accumulated `n` of the source is
discarded by every caller and is omitted; only the final position is
returned. -/
def skipBlocksF (input : List Nat) : Nat → Nat → Except GifErr Nat
  | 0, _ => .error .outOfFuel
  | fuel + 1, pos =>
    match readByte input pos with
    | none => .error .eof
    | some sz =>
      if sz = 0 then .ok (pos + 1)
      else skipBlocksF input fuel (pos + 1 + sz)

/-- `skipBlocks` with its always-sufficient fuel. -/
def skipBlocks (input : List Nat) (pos : Nat) : Except GifErr Nat :=
  skipBlocksF input (input.length + 1) pos

/-- The block loop of `LoadICCfromGIF` (gif source lines 131-229). -/
def gifLoop (input : List Nat) : Nat → Nat → Except GifErr (Option (List Nat))
  | 0, _ => .error .outOfFuel
  | fuel + 1, pos =>
    match readByte input pos with
    | none => .error .eof
    | some c =>
      let pos1 := pos + 1
      if c = 0x3b then .ok none   -- GIF trailer: end of image
      else if c = 0x2c then
        -- image descriptor: four little-endian uint16 fields and a flag byte
        match readBytes input pos1 9 with
        | none => .error .eof
        | some desc =>
          let flag := (desc.get? 8).getD 0
          let pos2 := pos1 + 9
          -- skip the local color table when its flag bit is set
          let pos3 :=
            if flag / 128 % 2 = 1 then pos2 + 3 * 2 ^ (1 + flag % 8) else pos2
          -- read the LZW minimum code size byte, then skip the data sub-blocks
          match readByte input pos3 with
          | none => .error .eof
          | some _ =>
            match skipBlocks input (pos3 + 1) with
            | .error e => .error e
            | .ok pos4 => gifLoop input fuel pos4
      else if c = 0x21 then
        match readByte input pos1 with
        | none => .error .eof
        | some ext =>
          let pos2 := pos1 + 1
          if ext = 0xff then
            -- application extension
            match readBlockG input pos2 with
            | .error e => .error e
            | .ok (block, pos3) =>
              if block.length ≠ 11 then .error .invalidSegment
              else if block = gifAppICCId then
                match readBlocks input pos3 with
                | .error e => .error e
                | .ok (icc, _) => .ok icc
              else
                match skipBlocks input pos3 with
                | .error e => .error e
                | .ok pos4 => gifLoop input fuel pos4
          else
            match skipBlocks input pos2 with
            | .error e => .error e
            | .ok pos3 => gifLoop input fuel pos3
      else .error .unknownBlockType

/-- Validity of the six GIF version bytes: `"GIF"`, two ASCII digits,
one lowercase ASCII letter. -/
def gifVersionOk (v0 v1 v2 v3 v4 v5 : Nat) : Prop :=
  v0 = 0x47 ∧ v1 = 0x49 ∧ v2 = 0x46 ∧
  0x30 ≤ v3 ∧ v3 ≤ 0x39 ∧ 0x30 ≤ v4 ∧ v4 ≤ 0x39 ∧ 0x61 ≤ v5 ∧ v5 ≤ 0x7a

instance (v0 v1 v2 v3 v4 v5 : Nat) : Decidable (gifVersionOk v0 v1 v2 v3 v4 v5) := by
  unfold gifVersionOk; infer_instance

/-- `LoadICCfromGIF`: read the 13-byte header, skip the global color
table when present, then walk the block stream. -/
def loadICCfromGIF (input : List Nat) : Except GifErr (Option (List Nat)) :=
  if input.length < 13 then .error .eof
  else
    let v0 := (input.get? 0).getD 0
    let v1 := (input.get? 1).getD 0
    let v2 := (input.get? 2).getD 0
    let v3 := (input.get? 3).getD 0
    let v4 := (input.get? 4).getD 0
    let v5 := (input.get? 5).getD 0
    let flag := (input.get? 10).getD 0
    if gifVersionOk v0 v1 v2 v3 v4 v5 then
      let pos0 :=
        if flag / 128 % 2 = 1 then 13 + 3 * 2 ^ (1 + flag % 8) else 13
      gifLoop input (input.length + 1) pos0
    else .error .invalidHeader

/-! ## CRC-32 (IEEE) and the PNG walker (`png.go`) -/

/-- The reflected IEEE CRC-32 polynomial used by `hash/crc32`. -/
def crcPoly : Nat := 0xedb88320

/-- One bit-round of the reflected CRC-32 computation. -/
def crcRound (c : Nat) : Nat :=
  if c % 2 = 1 then (c / 2) ^^^ crcPoly else c / 2

/-- Fold one byte into the CRC register. -/
def crcUpdByte (c b : Nat) : Nat := crcRound^[8] (c ^^^ b)

/-- Fold a byte sequence into the CRC register. -/
def crcUpdate (c : Nat) (bs : List Nat) : Nat := bs.foldl crcUpdByte c

/-- One `Write` to a Go `hash/crc32` digest: between writes the digest
stores the finalized checksum, so a write un-finalizes, folds the bytes
and re-finalizes. -/
def crcWrite (s : Nat) (bs : List Nat) : Nat :=
  (crcUpdate (s ^^^ 0xffffffff) bs) ^^^ 0xffffffff

/-- `crc32.ChecksumIEEE` of a byte sequence. -/
def crc32 (bs : List Nat) : Nat := crcWrite 0 bs

/-- Error outcomes of the PNG walker; names follow the specification's
error taxonomy (§7). -/
inductive PngErr where
  | invalidHeader
  | eof
  | unsupportedCompression
  | crcMismatch
  | inflateFailure
  | panicIndex
  | outOfFuel
deriving DecidableEq, Repr

/-- A PNG chunk record, mirroring `pngChunk`. -/
structure PngChunk where
  dataLen : Nat
  type : List Nat
  dataOffset : Nat
deriving DecidableEq, Repr

/-- Parsed PNG: chunk list plus the type-to-indices index, mirroring
`png`.  The Go map is modelled as an association list. -/
structure Png where
  chunks : List PngChunk
  byType : List (List Nat × List Nat)
deriving DecidableEq, Repr

/-- Look a type up in the chunk index. -/
def assocFind (m : List (List Nat × List Nat)) (t : List Nat) :
    Option (List Nat) :=
  match m with
  | [] => none
  | (key, v) :: rest => if key = t then some v else assocFind rest t

/-- Append a chunk index under a type, creating the entry when absent;
mirrors the map-append of `parsePNG`. -/
def assocAppend (m : List (List Nat × List Nat)) (t : List Nat) (i : Nat) :
    List (List Nat × List Nat) :=
  match m with
  | [] => [(t, [i])]
  | (key, v) :: rest =>
    if key = t then (key, v ++ [i]) :: rest else (key, v) :: assocAppend rest t i

/-- The 4-byte type `"IEND"`. -/
def iendType : List Nat := [0x49, 0x45, 0x4e, 0x44]

/-- The 4-byte type `"iCCP"`. -/
def iccpType : List Nat := [0x69, 0x43, 0x43, 0x50]

/-- The chunk-scan loop of `parsePNG`: read an 8-byte chunk header,
record the chunk, seek past data and CRC; a clean end of input or the
`IEND` chunk ends the loop. -/
def parsePNGLoop (input : List Nat) :
    Nat → Nat → List PngChunk → List (List Nat × List Nat) → Except PngErr Png
  | 0, _, _, _ => .error .outOfFuel
  | fuel + 1, pos, chunks, m =>
    if input.length ≤ pos then .ok ⟨chunks, m⟩   -- io.EOF: clean break
    else
      match readU32 input .be pos, readBytes input (pos + 4) 4 with
      | some len, some ty =>
        let ch : PngChunk := ⟨len, ty, pos + 8⟩
        let chunks1 := chunks ++ [ch]
        let m1 := assocAppend m ty chunks.length
        if ty = iendType then .ok ⟨chunks1, m1⟩
        else parsePNGLoop input fuel (pos + 8 + len + 4) chunks1 m1
      | _, _ => .error .eof

/-- The 8-byte PNG file signature. -/
def pngHeaderBytes : List Nat := [0x89, 0x50, 0x4e, 0x47, 0x0d, 0x0a, 0x1a, 0x0a]

/-- `parsePNG`: check the signature, then scan the chunk sequence. -/
def parsePNG (input : List Nat) : Except PngErr Png :=
  if input.length = 0 then .error .eof
  else if input.take 8 ≠ pngHeaderBytes then .error .invalidHeader
  else parsePNGLoop input (input.length + 1) 8 [] []

/-- Length of the prefix before the first zero byte; `none` when there
is no zero byte (the zstring read would hit end of input). -/
def findNullLen : List Nat → Option Nat
  | [] => none
  | b :: rest =>
    if b = 0 then some 0
    else
      match findNullLen rest with
      | none => none
      | some n => some (n + 1)

/-- `LoadICCfromPNGWithName`.  `inflate` stands for the external
`zlib` decompressor (an excluded collaborator); it is applied to the
compressed bytes of the chunk, which the source reads in full through
the CRC-accumulating reader.  Returns the profile (or `none` when the
PNG has no `iCCP` chunk) and the profile name bytes. -/
def loadICCfromPNGWithName (inflate : List Nat → Option (List Nat))
    (input : List Nat) : Except PngErr (Option (List Nat) × List Nat) :=
  match parsePNG input with
  | .error e => .error e
  | .ok img =>
    match (assocFind img.byType iccpType).getD [] with
    | [] => .ok (none, [])   -- no ICC profile: nil data, no error
    | i :: _ =>
      match img.chunks.get? i with
      | none => .error .panicIndex   -- unreachable: the index is always valid
      | some ch =>
        -- seed the CRC-32 accumulator with the chunk's 4 type bytes
        let crc0 := crcWrite 0 ch.type
        -- read the zero-terminated name and the method byte through the
        -- CRC-accumulating reader
        match findNullLen (input.drop ch.dataOffset) with
        | none => .error .eof
        | some nameLen =>
          let name := (input.drop ch.dataOffset).take nameLen
          match readByte input (ch.dataOffset + nameLen + 1) with
          | none => .error .eof
          | some method =>
            let crc1 := crcWrite crc0 (name ++ [0] ++ [method])
            let sz := nameLen + 1 + 1
            if method ≠ 0 then .error .unsupportedCompression
            else if (ch.dataLen : Int) - sz < 0 then
              -- a negative remaining length starves the decompressor
              .error .inflateFailure
            else
              match readBytes input (ch.dataOffset + sz) (ch.dataLen - sz) with
              | none => .error .eof
              | some comp =>
                let crc2 := crcWrite crc1 comp
                match inflate comp with
                | none => .error .inflateFailure
                | some prof =>
                  -- read the stored CRC directly from the source,
                  -- bypassing the accumulator
                  match readU32 input .be (ch.dataOffset + ch.dataLen) with
                  | none => .error .eof
                  | some storedCrc =>
                    if storedCrc ≠ crc2 then .error .crcMismatch
                    else .ok (some prof, name)

/-! ## Claim C2: value resolution of a directory entry -/

/-- C2 counterexample: the entry `{type = LONG, count = 1}` has
`count * typeSize = 4 ≤ 4`, yet `fetchRawData` does not produce the
leading bytes of the packed value field without a seek — it seeks to
offset `value` (here 0) and reads four bytes from the source. -/
theorem fetchRawData_inline_counterexample :
    (⟨0x8773, 4, 1, 0⟩ : TifDirEntry).count * tifTypeSize.getD 4 0 ≤ 4 ∧
    fetchRawData ⟨0x8773, 4, 1, 0⟩ .le [1, 2, 3, 4, 5, 6, 7, 8] 100 =
      .ok ([1, 2, 3, 4], 4) ∧
    fetchRawData ⟨0x8773, 4, 1, 0⟩ .le [1, 2, 3, 4, 5, 6, 7, 8] 100 ≠
      .ok ((marshalU32 .le 0).take
        ((⟨0x8773, 4, 1, 0⟩ : TifDirEntry).count * tifTypeSize.getD 4 0), 100) := by
  decide

/-- C2 amended: for a recognized type code, if `count * typeSize < 4`
(strictly) the entry resolves to the leading `count * typeSize` bytes of
the packed 32-bit value field, independent of the source and without
moving the position; otherwise (`≥ 4`, including exactly 4) the walker
seeks to the offset in the value field and reads `count * typeSize`
bytes from there, failing when the source is too short. -/
theorem fetchRawData_resolution (d : TifDirEntry) (endian : ByteOrder)
    (input : List Nat) (pos : Nat) (h : d.type < tifTypeSize.length) :
    (d.count * tifTypeSize.get ⟨d.type, h⟩ < 4 →
      fetchRawData d endian input pos =
        .ok ((marshalU32 endian d.value).take
          (d.count * tifTypeSize.get ⟨d.type, h⟩), pos)) ∧
    (4 ≤ d.count * tifTypeSize.get ⟨d.type, h⟩ →
      (d.value + d.count * tifTypeSize.get ⟨d.type, h⟩ ≤ input.length →
        fetchRawData d endian input pos =
          .ok ((input.drop d.value).take (d.count * tifTypeSize.get ⟨d.type, h⟩),
            d.value + d.count * tifTypeSize.get ⟨d.type, h⟩)) ∧
      (input.length < d.value + d.count * tifTypeSize.get ⟨d.type, h⟩ →
        fetchRawData d endian input pos = .error .eof)) := by
  refine ⟨fun hlt => ?_, fun hge => ⟨fun hin => ?_, fun hout => ?_⟩⟩
  · unfold fetchRawData
    rw [dif_pos h, if_pos hlt]
  · unfold fetchRawData readBytes
    rw [dif_pos h, if_neg (by omega), if_neg (by omega), if_pos hin]
  · unfold fetchRawData readBytes
    rw [dif_pos h, if_neg (by omega), if_neg (by omega), if_neg (by omega)]

/-- C2 amended, witness: a SHORT entry (size 2, inline) and a LONG entry
(size 4, resolved through a seek to offset 0). -/
theorem fetchRawData_resolution_witness :
    fetchRawData ⟨1, 3, 1, 258⟩ .le [5, 6, 7, 8] 9 = .ok ([2, 1], 9) ∧
    fetchRawData ⟨1, 4, 1, 0⟩ .le [5, 6, 7, 8] 9 = .ok ([5, 6, 7, 8], 4) := by
  constructor
  · exact ((fetchRawData_resolution ⟨1, 3, 1, 258⟩ .le [5, 6, 7, 8] 9 (by decide)).1
      (by decide)).trans (by decide)
  · exact (((fetchRawData_resolution ⟨1, 4, 1, 0⟩ .le [5, 6, 7, 8] 9 (by decide)).2
      (by decide)).1 (by decide)).trans (by decide)

/-! ## Claim C3: string reads of a directory entry -/

/-- C3 counterexample: an ASCII entry whose bytes are `"AB"` (no
trailing null) still loses its final byte — `getString` strips the last
byte whenever the buffer is longer than one byte, not only when that
byte is a null. -/
theorem getString_counterexample :
    fetchRawData ⟨1, 2, 2, 16961⟩ .le [] 0 = .ok ([65, 66], 0) ∧
    (66 : Nat) ≠ 0 ∧
    getString ⟨1, 2, 2, 16961⟩ .le [] 0 = .ok ([65], 0) ∧
    getString ⟨1, 2, 2, 16961⟩ .le [] 0 ≠ .ok ([65, 66], 0) := by
  decide

/-- C3 amended: `getString` fails with a type mismatch on any non-ASCII
entry; on an ASCII entry it returns the fetched bytes with the final
byte removed whenever the buffer holds more than one byte — regardless
of whether that byte is a null — and unchanged otherwise (even a single
null byte is kept). -/
theorem getString_behavior (d : TifDirEntry) (endian : ByteOrder)
    (input : List Nat) (pos : Nat) :
    (d.type ≠ 2 → getString d endian input pos = .error .typeMismatch) ∧
    (∀ buf pos1, d.type = 2 →
      fetchRawData d endian input pos = .ok (buf, pos1) →
      getString d endian input pos =
        .ok (if 1 < buf.length then buf.dropLast else buf, pos1)) := by
  constructor
  · intro hne
    simp [getString, hne]
  · intro buf pos1 hty hfetch
    by_cases hb : 1 < buf.length <;> simp [getString, hty, hfetch, hb]

/-- C3 amended, witness: a non-ASCII entry is rejected; an ASCII entry
with inline bytes `"ABC"` comes back as `"AB"`. -/
theorem getString_behavior_witness :
    getString ⟨1, 3, 1, 0⟩ .le [] 0 = .error .typeMismatch ∧
    getString ⟨1, 2, 3, 4407873⟩ .le [] 7 = .ok ([65, 66], 7) := by
  constructor
  · exact (getString_behavior ⟨1, 3, 1, 0⟩ .le [] 0).1 (by decide)
  · exact ((getString_behavior ⟨1, 2, 3, 4407873⟩ .le [] 7).2 [65, 66, 67] 7
      (by decide) (by decide)).trans (by decide)

/-! ## Claim C1: the IFD chain is never followed past the first IFD -/

/-- A little-endian TIFF whose first IFD (at offset 8) holds one
non-ICC entry and links to a second IFD (at offset 26) that carries the
ICC tag 0x8773 with its data at offset 44. -/
def exTifTwoIFD : List Nat :=
  [0x49, 0x49, 42, 0, 8, 0, 0, 0,
   -- IFD 1 at offset 8: one entry, tag 0x0100, next-IFD offset 26
   1, 0, 0x00, 0x01, 3, 0, 1, 0, 0, 0, 0, 0, 0, 0, 26, 0, 0, 0,
   -- IFD 2 at offset 26: one entry, tag 0x8773, next-IFD offset 0
   1, 0, 0x73, 0x87, 1, 0, 4, 0, 0, 0, 44, 0, 0, 0, 0, 0, 0, 0,
   -- the ICC payload at offset 44
   0xde, 0xad, 0xbe, 0xef]

/-- C1 (code bug): the first IFD's next-IFD offset is non-zero and the
second IFD carries tag 0x8773, yet `LoadICCfromTIFF` reports no profile:
the chain loop advances with the accumulator's never-assigned
`OffsetNextIFD` (always 0) instead of the freshly read IFD's, so no IFD
beyond the first is ever read. -/
theorem tiff_second_ifd_invisible :
    readSingleIFD exTifTwoIFD .le 8 = .ok (⟨1, [⟨0x0100, 3, 1, 0⟩], 26⟩, 26) ∧
    readSingleIFD exTifTwoIFD .le 26 = .ok (⟨1, [⟨0x8773, 1, 4, 44⟩], 0⟩, 44) ∧
    loadICCfromTIFF exTifTwoIFD = .ok none := by
  decide

/-! ## Claim C5: ICC segment count and order checks -/

/-- A JPEG whose first ICC APP2 segment declares chunk-count 0 (index 1)
and whose second declares chunk-count 5 (index 2), each with an empty
payload, followed by the end-of-image marker. -/
def exJpgCount : List Nat :=
  [0xff, 0xd8,
   0xff, 0xe2, 0x00, 0x10,
   0x49, 0x43, 0x43, 0x5f, 0x50, 0x52, 0x4f, 0x46, 0x49, 0x4c, 0x45, 0x00, 1, 0,
   0xff, 0xe2, 0x00, 0x10,
   0x49, 0x43, 0x43, 0x5f, 0x50, 0x52, 0x4f, 0x46, 0x49, 0x4c, 0x45, 0x00, 2, 5,
   0xff, 0xd9]

/-- C5 counterexample: the second ICC segment's declared chunk-count (5)
differs from the first segment's (0), yet `LoadICCfromJPG` does not fail
with a count mismatch — a declared count of 0 is never recorded, so the
next segment's count is adopted silently. -/
theorem jpg_count_mismatch_counterexample :
    exJpgCount.get? 19 = some 0 ∧
    exJpgCount.get? 37 = some 5 ∧
    loadICCfromJPG exJpgCount = .ok none := by
  decide

/-- C5 amended: the per-segment check fails with SegmentCountMismatch
exactly when the declared count differs from a nonzero recorded total
(a recorded total of zero is treated as "nothing recorded yet" and is
overwritten), and fails with SegmentOrderMismatch exactly when the count
check passes but the chunk index is not one more than the previously
processed index. -/
theorem app2ICCCheck_behavior (max last idx count : Nat) :
    (app2ICCCheck max last idx count = .error .segmentCountMismatch ↔
      max ≠ 0 ∧ max ≠ count) ∧
    (app2ICCCheck max last idx count = .error .segmentOrderMismatch ↔
      (max = 0 ∨ max = count) ∧ idx ≠ last + 1) := by
  unfold app2ICCCheck
  by_cases h0 : max = 0 <;> by_cases hc : max = count <;>
    by_cases hi : idx = last + 1 <;> simp [h0, hc, hi]

/-! ## Claim C6: detection of a second frame header -/

/-- A JPEG with two SOF0 segments, each with an (invalid) 4-byte payload
that matches no recognized component count, then end-of-image. -/
def exJpgTwoSOF : List Nat :=
  [0xff, 0xd8,
   0xff, 0xc0, 0x00, 0x06, 0, 0, 0, 0,
   0xff, 0xc0, 0x00, 0x06, 0, 0, 0, 0,
   0xff, 0xd9]

/-- C6 counterexample: a second SOF0 marker is encountered before any
scan, yet `LoadICCfromJPG` does not fail: the first SOF's payload length
matches no recognized component count, so the component counter stays 0
and the duplicate-SOF condition never fires. -/
theorem jpg_double_sof_counterexample :
    exJpgTwoSOF.get? 2 = some 0xff ∧ exJpgTwoSOF.get? 3 = some 0xc0 ∧
    exJpgTwoSOF.get? 10 = some 0xff ∧ exJpgTwoSOF.get? 11 = some 0xc0 ∧
    loadICCfromJPG exJpgTwoSOF = .ok none := by
  decide

/-- C6 amended: a second SOF marker fails with MultipleFrameHeaders
exactly when the first SOF's payload length matched a recognized
component count (6+3n for n in {1,3,4}); after a first SOF with any
other payload length the component count stays zero and a second SOF is
accepted without error. -/
theorem processSOF_behavior (s1 s2 : Int) :
    ((s1 = 9 ∨ s1 = 15 ∨ s1 = 18) → ∀ n, processSOF 0 s1 = .ok n →
      processSOF n s2 = .error .multipleFrameHeaders) ∧
    (¬(s1 = 9 ∨ s1 = 15 ∨ s1 = 18) →
      processSOF 0 s1 = .ok 0 ∧ ∀ e, processSOF 0 s2 ≠ .error e) := by
  constructor
  · intro h n hn
    have hn0 : n ≠ 0 := by
      rcases h with h | h | h <;> subst h <;> simp [processSOF] at hn <;> omega
    simp [processSOF, hn0]
  · intro h
    push_neg at h
    exact ⟨by simp [processSOF, h.1, h.2.1, h.2.2], fun e => by simp [processSOF]⟩

/-- C6 amended, witness: a valid grayscale SOF records component count 1
and a second SOF then fails; an invalid first SOF leaves the count at 0
and a second SOF passes. -/
theorem processSOF_behavior_witness :
    processSOF 0 9 = .ok 1 ∧
    processSOF 1 9 = .error .multipleFrameHeaders ∧
    processSOF 0 4 = .ok 0 ∧
    processSOF 0 4 ≠ .error .multipleFrameHeaders := by
  refine ⟨by decide, ?_, ?_, ?_⟩
  · exact (processSOF_behavior 9 9).1 (Or.inl rfl) 1 (by decide)
  · exact ((processSOF_behavior 4 4).2 (by decide)).1
  · exact ((processSOF_behavior 4 4).2 (by decide)).2 .multipleFrameHeaders

/-! ## Claim C7: entropy-coded scan skipping and byte stuffing -/

/-- The scan loop stops after `j + 2` bytes when the first
`0xff`-followed-by-nonzero pair starts at index `j`, provided every
earlier `0xff` is followed by a `0x00` stuffing byte (and the window's
initial previous byte is not treated as a marker start). -/
lemma sosScanL_finds (j : Nat) : ∀ (s : List Nat) (prev c : Nat),
    s.get? j = some 0xff →
    s.get? (j + 1) = some c → c ≠ 0 →
    (∀ m, m < j → s.get? m = some 0xff → (s.get? (m + 1)).getD 0 = 0) →
    (prev = 0xff → (s.get? 0).getD 0 = 0) →
    sosScanL prev s = some (j + 2) := by
  induction j with
  | zero =>
    intro s prev c hff hc hcnz _ hprev
    match s, hff with
    | b :: t, hff =>
      have hb : b = 0xff := by simpa using hff
      subst hb
      match t, hc with
      | c0 :: u, hc =>
        have hc0 : c0 = c := by simpa using hc
        subst hc0
        have hpne : ¬(prev = 0xff ∧ (0xff : Nat) ≠ 0) := by
          rintro ⟨hp, -⟩
          simpa using hprev hp
        simp only [sosScanL, if_neg hpne]
        simp [hcnz]
  | succ j ih =>
    intro s prev c hff hc hcnz hmin hprev
    match s, hff with
    | b :: t, hff =>
      have hstep : ¬(prev = 0xff ∧ b ≠ 0) := by
        rintro ⟨hp, hb⟩
        exact hb (by simpa using hprev hp)
      have hrec : sosScanL b t = some (j + 2) := by
        refine ih t b c (by simpa using hff) (by simpa using hc) hcnz ?_ ?_
        · intro m hm hfm
          have := hmin (m + 1) (by omega) (by simpa using hfm)
          simpa using this
        · intro hb
          have := hmin 0 (by omega) (by simp [hb])
          simpa using this
      simp only [sosScanL, if_neg hstep, hrec]

/-- C7: after validating the scan header, `skipSOS` skips the
entropy-coded data and leaves the source exactly at the first `0xff`
byte that is followed by a non-zero byte, provided every earlier `0xff`
in the scan data is a stuffed `0xff 0x00` pair — which is therefore
never mis-detected as a marker. -/
theorem skipSOS_resumes_at_first_marker
    (input : List Nat) (pos nc j c : Nat) (hl : Int)
    (hnc : nc ≠ 0)
    (h6 : 6 ≤ hl) (hub : hl ≤ 4 + 2 * (nc : Int)) (hev : hl % 2 = 0)
    (hhdr : pos + hl.toNat ≤ input.length)
    (hff : input.get? (pos + hl.toNat + j) = some 0xff)
    (hc : input.get? (pos + hl.toNat + j + 1) = some c)
    (hcnz : c ≠ 0)
    (hmin : ∀ m, m < j → input.get? (pos + hl.toNat + m) = some 0xff →
      (input.get? (pos + hl.toNat + m + 1)).getD 0 = 0) :
    skipSOS input pos nc hl = .ok (hl.toNat + j, pos + (hl.toNat + j)) := by
  have hscan : sosScanL 0 (input.drop (pos + hl.toNat)) = some (j + 2) := by
    refine sosScanL_finds j (input.drop (pos + hl.toNat)) 0 c ?_ ?_ hcnz ?_ ?_
    · rw [List.get?_eq_getElem?, List.getElem?_drop]
      simpa [List.get?_eq_getElem?] using hff
    · rw [List.get?_eq_getElem?, List.getElem?_drop]
      simpa [List.get?_eq_getElem?, Nat.add_assoc] using hc
    · intro m hm hfm
      rw [List.get?_eq_getElem?, List.getElem?_drop]
      have h1 := hmin m hm (by
        rw [List.get?_eq_getElem?, List.getElem?_drop] at hfm
        simpa [List.get?_eq_getElem?] using hfm)
      simpa [List.get?_eq_getElem?, Nat.add_assoc] using h1
    · intro h0
      simp at h0
  have hread : readBytes input pos hl.toNat = some ((input.drop pos).take hl.toNat) := by
    unfold readBytes
    rw [if_neg (by omega), if_pos hhdr]
  have harith : hl.toNat + (j + 2) - 2 = hl.toNat + j := by omega
  unfold skipSOS
  rw [if_neg hnc, if_neg (by push_neg; exact ⟨by omega, by omega, by omega⟩)]
  simp only [hread, hscan, harith]

/-- A six-byte scan header followed by entropy data that contains a
stuffed `ff 00` pair before the true marker `ff 37` at offset 10. -/
def exSOSInput : List Nat :=
  [1, 1, 0, 0, 0, 0, 0x12, 0xff, 0x00, 0x34, 0xff, 0x37]

/-- C7 witness: the walker skips the stuffed `ff 00` pair and resumes
exactly at the `0xff` of the first true marker. -/
theorem skipSOS_witness : skipSOS exSOSInput 0 1 6 = .ok (10, 10) := by
  exact (skipSOS_resumes_at_first_marker exSOSInput 0 1 4 0x37 6 (by decide)
    (by decide) (by decide) (by decide) (by decide) (by decide) (by decide)
    (by decide) (by decide)).trans (by decide)

/-! ## Claim C4: the PNG chunk CRC covers type, name, method and the
raw compressed bytes -/

/-- Two successive writes to the CRC accumulator are one write of the
concatenation. -/
lemma crcWrite_crcWrite (s : Nat) (a b : List Nat) :
    crcWrite (crcWrite s a) b = crcWrite s (a ++ b) := by
  unfold crcWrite crcUpdate
  rw [Nat.xor_cancel_right, List.foldl_append]

/-- C4: when the `iCCP` chunk is processed through to the checksum
comparison (deflate method byte, inflatable payload, stored CRC all
present), the walker fails with CrcMismatch exactly when the stored
32-bit value differs from the CRC-32 over the chunk-type bytes, the
profile name, its null terminator, the method byte, and the raw
compressed bytes as read off the wire; when they agree it returns the
inflated profile and the name. -/
theorem png_iccp_crc_check
    (inflate : List Nat → Option (List Nat)) (input : List Nat)
    (img : Png) (i : Nat) (l : List Nat) (ch : PngChunk)
    (nameLen : Nat) (comp prof : List Nat) (storedCrc : Nat)
    (hparse : parsePNG input = .ok img)
    (hfind : assocFind img.byType iccpType = some (i :: l))
    (hch : img.chunks.get? i = some ch)
    (hname : findNullLen (input.drop ch.dataOffset) = some nameLen)
    (hmethod : readByte input (ch.dataOffset + nameLen + 1) = some 0)
    (hsz : nameLen + 2 ≤ ch.dataLen)
    (hcomp : readBytes input (ch.dataOffset + (nameLen + 1 + 1))
        (ch.dataLen - (nameLen + 1 + 1)) = some comp)
    (hinf : inflate comp = some prof)
    (hcrc : readU32 input .be (ch.dataOffset + ch.dataLen) = some storedCrc) :
    (loadICCfromPNGWithName inflate input = .error .crcMismatch ↔
      storedCrc ≠ crc32 (ch.type ++ (input.drop ch.dataOffset).take nameLen
        ++ [0, 0] ++ comp)) ∧
    (storedCrc = crc32 (ch.type ++ (input.drop ch.dataOffset).take nameLen
        ++ [0, 0] ++ comp) →
      loadICCfromPNGWithName inflate input =
        .ok (some prof, (input.drop ch.dataOffset).take nameLen)) := by
  have hcrc2 : crcWrite (crcWrite (crcWrite 0 ch.type)
      ((input.drop ch.dataOffset).take nameLen ++ [0] ++ [0])) comp
      = crc32 (ch.type ++ (input.drop ch.dataOffset).take nameLen
        ++ [0, 0] ++ comp) := by
    rw [crcWrite_crcWrite, crcWrite_crcWrite]
    unfold crc32
    congr 1
    simp
  have hres : loadICCfromPNGWithName inflate input =
      (if storedCrc ≠ crc32 (ch.type ++ (input.drop ch.dataOffset).take nameLen
          ++ [0, 0] ++ comp)
        then .error .crcMismatch
        else .ok (some prof, (input.drop ch.dataOffset).take nameLen)) := by
    unfold loadICCfromPNGWithName
    simp only [hparse, hfind, Option.getD_some, hch, hname, hmethod, hcomp,
      hinf, hcrc, if_false, ne_eq, not_true_eq_false, ite_false,
      not_false_eq_true, ite_true, hcrc2]
    rw [if_neg (by omega)]
  constructor
  · rw [hres]
    by_cases h : storedCrc = crc32 (ch.type ++ (input.drop ch.dataOffset).take nameLen
        ++ [0, 0] ++ comp) <;> simp [h]
  · intro heq
    rw [hres, if_neg (by simp [heq])]

/-- The external inflate collaborator used by the C4 witness. -/
def exInflate : List Nat → Option (List Nat) :=
  fun c => if c = [1, 2] then some [7, 7, 7] else none

/-- A PNG with one `iCCP` chunk: name `"ab"`, method 0, compressed
bytes `[1, 2]`, correct stored CRC, followed by an `IEND` chunk. -/
def exPngICC : List Nat :=
  [0x89, 0x50, 0x4e, 0x47, 0x0d, 0x0a, 0x1a, 0x0a,
   0, 0, 0, 6, 0x69, 0x43, 0x43, 0x50, 97, 98, 0, 0, 1, 2, 122, 239, 252, 8,
   0, 0, 0, 0, 0x49, 0x45, 0x4e, 0x44, 0, 0, 0, 0]

set_option maxRecDepth 4000 in
/-- C4 witness: with the matching stored CRC the walker returns the
inflated profile and the name. -/
theorem png_iccp_crc_check_witness :
    loadICCfromPNGWithName exInflate exPngICC = .ok (some [7, 7, 7], [97, 98]) := by
  exact ((png_iccp_crc_check exInflate exPngICC
    ⟨[⟨6, iccpType, 16⟩, ⟨0, iendType, 34⟩], [(iccpType, [0]), (iendType, [1])]⟩
    0 [] ⟨6, iccpType, 16⟩ 2 [1, 2] [7, 7, 7] 2062547976
    (by decide) (by decide) (by decide) (by decide) (by decide) (by decide)
    (by decide) (by decide) (by decide)).2 (by decide)).trans (by decide)

/-! ## Claim C8: an unmatched application extension is skipped and a
later matching one is still found -/

/-- C8: when the block stream holds an application extension whose
11-byte identifier/auth header does not match the recognized pair, the
walker skips its remaining sub-blocks uninterpreted and keeps walking,
so a later, correctly identified application extension is still found
and its concatenated sub-blocks are returned — both by the block loop
(with any fuel) and by the whole walker. -/
theorem gif_unmatched_appext_skipped
    (input : List Nat) (pos : Nat) (hdr : List Nat) (p1 p2 p3 : Nat)
    (icc : Option (List Nat)) (pend : Nat)
    (h21 : readByte input pos = some 0x21)
    (hff : readByte input (pos + 1) = some 0xff)
    (hblk : readBlockG input (pos + 2) = .ok (hdr, p1))
    (hlen : hdr.length = 11)
    (hne : hdr ≠ gifAppICCId)
    (hskip : skipBlocks input p1 = .ok p2)
    (h21b : readByte input p2 = some 0x21)
    (hffb : readByte input (p2 + 1) = some 0xff)
    (hblkb : readBlockG input (p2 + 2) = .ok (gifAppICCId, p3))
    (hrd : readBlocks input p3 = .ok (icc, pend))
    (hlen13 : 13 ≤ input.length)
    (hv : gifVersionOk ((input.get? 0).getD 0) ((input.get? 1).getD 0)
      ((input.get? 2).getD 0) ((input.get? 3).getD 0) ((input.get? 4).getD 0)
      ((input.get? 5).getD 0))
    (hpos : pos = if ((input.get? 10).getD 0) / 128 % 2 = 1
      then 13 + 3 * 2 ^ (1 + ((input.get? 10).getD 0) % 8) else 13) :
    (∀ fuel, gifLoop input (fuel + 2) pos = .ok icc) ∧
    loadICCfromGIF input = .ok icc := by
  have hloop : ∀ fuel, gifLoop input (fuel + 2) pos = .ok icc := by
    intro fuel
    show gifLoop input (fuel + 1 + 1) pos = .ok icc
    simp [gifLoop, h21, hff, hblk, hlen, hskip, h21b, hffb, hblkb, hrd,
      gifAppICCId]
    intro h
    exact absurd h (by simpa [gifAppICCId] using hne)
  refine ⟨hloop, ?_⟩
  unfold loadICCfromGIF
  rw [if_neg (by omega)]
  simp only []
  rw [if_pos hv, ← hpos]
  have h2 : input.length + 1 = (input.length - 1) + 2 := by omega
  rw [h2]
  exact hloop _

/-- A GIF holding first an application extension with the unrecognized
identifier/auth pair `"ABCDEFGH123"` (one 3-byte sub-block) and then the
recognized ICC application extension with profile bytes `[9, 9]`. -/
def exGifTwoExt : List Nat :=
  [0x47, 0x49, 0x46, 0x38, 0x39, 0x61, 1, 0, 1, 0, 0, 0, 0,
   0x21, 0xff, 0x0b, 65, 66, 67, 68, 69, 70, 71, 72, 49, 50, 51,
   0x03, 1, 2, 3, 0x00,
   0x21, 0xff, 0x0b, 0x49, 0x43, 0x43, 0x52, 0x47, 0x42, 0x47, 0x31,
   0x30, 0x31, 0x32,
   0x02, 9, 9, 0x00,
   0x3b]

/-- C8 witness: the walker skips the unrecognized extension and returns
the later ICC extension's payload. -/
theorem gif_unmatched_appext_skipped_witness :
    loadICCfromGIF exGifTwoExt = .ok (some [9, 9]) := by
  exact (gif_unmatched_appext_skipped exGifTwoExt 13
    [65, 66, 67, 68, 69, 70, 71, 72, 49, 50, 51] 27 32 46 (some [9, 9]) 50
    (by decide) (by decide) (by decide) (by decide) (by decide) (by decide)
    (by decide) (by decide) (by decide) (by decide) (by decide) (by decide)
    (by decide)).2

/-! ## Claim C10: empty profile payloads are indistinguishable from
absent profiles -/

/-- A JPEG with a complete single-segment ICC profile whose payload is
empty. -/
def exJpgEmptyICC : List Nat :=
  [0xff, 0xd8, 0xff, 0xe2, 0x00, 0x10,
   0x49, 0x43, 0x43, 0x5f, 0x50, 0x52, 0x4f, 0x46, 0x49, 0x4c, 0x45, 0x00, 1, 1,
   0xff, 0xd9]

/-- A GIF whose ICC application extension's sub-block stream starts with
the terminating zero-length sub-block. -/
def exGifEmptyICC : List Nat :=
  [0x47, 0x49, 0x46, 0x38, 0x39, 0x61, 1, 0, 1, 0, 0, 0, 0,
   0x21, 0xff, 0x0b, 0x49, 0x43, 0x43, 0x52, 0x47, 0x42, 0x47, 0x31,
   0x30, 0x31, 0x32, 0x00,
   0x3b]

/-- A JPEG with no ICC segment at all. -/
def exJpgPlain : List Nat := [0xff, 0xd8, 0xff, 0xd9]

/-- A GIF with no application extension at all. -/
def exGifPlain : List Nat :=
  [0x47, 0x49, 0x46, 0x38, 0x39, 0x61, 1, 0, 1, 0, 0, 0, 0, 0x3b]

/-- C10: a complete ICC segment set with an empty accumulated payload
(JPEG) and an ICC application extension whose sub-block stream is
immediately terminated (GIF) both return a nil buffer with no error —
exactly the result produced when no profile is present at all. -/
theorem empty_profile_indistinguishable :
    loadICCfromJPG exJpgEmptyICC = .ok none ∧
    loadICCfromGIF exGifEmptyICC = .ok none ∧
    loadICCfromJPG exJpgPlain = .ok none ∧
    loadICCfromGIF exGifPlain = .ok none ∧
    loadICCfromJPG exJpgEmptyICC = loadICCfromJPG exJpgPlain ∧
    loadICCfromGIF exGifEmptyICC = loadICCfromGIF exGifPlain := by
  decide

/-! ## Claim C9: profile-free well-formed inputs give an empty result -/

/-- A successful single-byte read means the position is in range. -/
lemma readByte_lt {input : List Nat} {pos c : Nat}
    (h : readByte input pos = some c) : pos < input.length := by
  unfold readByte at h
  exact (List.get?_eq_some.mp h).1

/-- A forward relative seek is plain addition. -/
lemma seekCur_nonneg {p : Nat} {d : Int} (h : 0 ≤ d) :
    seekCur p d = p + d.toNat := by
  unfold seekCur
  rw [if_neg (by omega)]
  omega

/-- The GIF sub-block skip strictly advances the position. -/
lemma skipBlocksF_gt {input : List Nat} :
    ∀ {fuel p q : Nat}, skipBlocksF input fuel p = .ok q → p < q := by
  intro fuel
  induction fuel with
  | zero => intro p q h; simp [skipBlocksF] at h
  | succ fuel ih =>
    intro p q h
    unfold skipBlocksF at h
    split at h
    · simp at h
    · split at h
      · simp at h
        omega
      · have := ih h
        omega

/-- The GIF sub-block skip (with its standard fuel) strictly advances
the position. -/
lemma skipBlocks_gt {input : List Nat} {p q : Nat}
    (h : skipBlocks input p = .ok q) : p < q :=
  skipBlocksF_gt h

/-- Reading one GIF sub-block strictly advances the position. -/
lemma readBlockG_gt {input : List Nat} {p q : Nat} {b : List Nat}
    (h : readBlockG input p = .ok (b, q)) : p < q := by
  unfold readBlockG at h
  split at h
  · simp at h
  · split at h
    · simp at h
      omega
    · split at h
      · simp at h
      · simp at h
        omega

/-- The GIF sub-block concatenation strictly advances the position. -/
lemma readBlocksF_gt {input : List Nat} :
    ∀ {fuel p q : Nat} {acc : List Nat} {o : Option (List Nat)},
      readBlocksF input fuel p acc = .ok (o, q) → p < q := by
  intro fuel
  induction fuel with
  | zero => intro p q acc o h; simp [readBlocksF] at h
  | succ fuel ih =>
    intro p q acc o h
    unfold readBlocksF at h
    split at h
    · simp at h
    · split at h
      · simp at h
        omega
      · split at h
        · simp at h
        · have := ih h
          omega

/-- The entropy-data scan reads at least one byte. -/
lemma sosScanL_pos {prev : Nat} {s : List Nat} {k : Nat}
    (h : sosScanL prev s = some k) : 1 ≤ k := by
  match s with
  | [] => simp [sosScanL] at h
  | c :: rest =>
    unfold sosScanL at h
    split at h
    · simp at h
      omega
    · split at h
      · simp at h
      · simp at h
        omega

/-- The ICC-tag scan finds nothing in a list without tag 0x8773. -/
lemma scanForICCTag_none {endian : ByteOrder} {input : List Nat} {pos : Nat} :
    ∀ {entries : List TifDirEntry}, (∀ d ∈ entries, d.tag ≠ 0x8773) →
      scanForICCTag entries endian input pos = .ok none := by
  intro entries
  induction entries with
  | nil => intro _; rfl
  | cons d rest ih =>
    intro h
    unfold scanForICCTag
    rw [if_neg (h d (by simp))]
    exact ih (fun e he => h e (by simp [he]))

/-- Finding in the index after an append. -/
lemma assocFind_assocAppend (t ty : List Nat) (i : Nat) :
    ∀ (m : List (List Nat × List Nat)),
      assocFind (assocAppend m ty i) t =
        if ty = t then some (((assocFind m t).getD []) ++ [i])
        else assocFind m t := by
  intro m
  induction m with
  | nil =>
    by_cases h : ty = t <;> simp [assocAppend, assocFind, h]
  | cons kv rest ih =>
    obtain ⟨k, v⟩ := kv
    by_cases hk : k = ty
    · subst hk
      by_cases ht : k = t
      · subst ht
        simp [assocAppend, assocFind]
      · simp [assocAppend, assocFind, ht]
    · by_cases ht : k = t
      · subst ht
        have hyt : ¬(ty = k) := fun h => hk h.symm
        simp [assocAppend, assocFind, hk, hyt]
      · simp [assocAppend, assocFind, hk, ht, ih]

/-- Through the PNG chunk-scan loop, an index entry for a type only
exists when some recorded chunk has that type. -/
lemma parsePNGLoop_index_sound {input : List Nat} (t : List Nat) :
    ∀ {fuel pos : Nat} {chunks : List PngChunk}
      {m : List (List Nat × List Nat)} {img : Png},
      parsePNGLoop input fuel pos chunks m = .ok img →
      (assocFind m t ≠ none → ∃ c ∈ chunks, c.type = t) →
      (assocFind img.byType t ≠ none → ∃ c ∈ img.chunks, c.type = t) := by
  intro fuel
  induction fuel with
  | zero => intro pos chunks m img h _; simp [parsePNGLoop] at h
  | succ fuel ih =>
    intro pos chunks m img h hinv
    unfold parsePNGLoop at h
    by_cases hend : input.length ≤ pos
    · rw [if_pos hend] at h
      simp at h
      subst h
      exact hinv
    · rw [if_neg hend] at h
      match h32 : readU32 input .be pos, hty : readBytes input (pos + 4) 4 with
      | none, _ => rw [h32] at h; simp at h
      | some len, none => rw [h32, hty] at h; simp at h
      | some len, some ty =>
        rw [h32, hty] at h
        simp only at h
        have hstep : assocFind (assocAppend m ty chunks.length) t ≠ none →
            ∃ c ∈ chunks ++ [(⟨len, ty, pos + 8⟩ : PngChunk)], c.type = t := by
          intro hne
          rw [assocFind_assocAppend] at hne
          by_cases hty2 : ty = t
          · exact ⟨⟨len, ty, pos + 8⟩, by simp, hty2⟩
          · rw [if_neg hty2] at hne
            obtain ⟨c, hc, hct⟩ := hinv hne
            exact ⟨c, by simp [hc], hct⟩
        by_cases hiend : ty = iendType
        · rw [if_pos hiend] at h
          simp at h
          subst h
          exact hstep
        · rw [if_neg hiend] at h
          exact ih h hstep

/-- Modelled from the spec (§4.5): the block stream starting at `pos`
is a well-formed sequence of image descriptors and extension blocks that
reaches the trailer, and no application extension in it carries the
recognized ICC identifier/auth pair.  The fuel bounds the number of
blocks. -/
def gifWfNoICC (input : List Nat) : Nat → Nat → Bool
  | 0, _ => false
  | fuel + 1, pos =>
    match readByte input pos with
    | none => false
    | some c =>
      if c = 0x3b then true
      else if c = 0x2c then
        match readBytes input (pos + 1) 9 with
        | none => false
        | some desc =>
          let flag := (desc.get? 8).getD 0
          let pos3 := if flag / 128 % 2 = 1
            then pos + 1 + 9 + 3 * 2 ^ (1 + flag % 8) else pos + 1 + 9
          match readByte input pos3 with
          | none => false
          | some _ =>
            match skipBlocks input (pos3 + 1) with
            | .error _ => false
            | .ok pos4 => gifWfNoICC input fuel pos4
      else if c = 0x21 then
        match readByte input (pos + 1) with
        | none => false
        | some ext =>
          if ext = 0xff then
            match readBlockG input (pos + 1 + 1) with
            | .error _ => false
            | .ok (block, p1) =>
              if block.length = 11 ∧ block ≠ gifAppICCId then
                match skipBlocks input p1 with
                | .error _ => false
                | .ok p2 => gifWfNoICC input fuel p2
              else false
          else
            match skipBlocks input (pos + 1 + 1) with
            | .error _ => false
            | .ok p1 => gifWfNoICC input fuel p1
      else false

/-- On any block stream accepted by the profile-free grammar, the block
loop of the GIF walker returns an empty result with no error, for every
sufficient fuel. -/
lemma gifWfNoICC_loop {input : List Nat} :
    ∀ {n pos : Nat}, gifWfNoICC input n pos = true →
      ∀ {f : Nat}, input.length - pos < f → gifLoop input f pos = .ok none := by
  intro n
  induction n with
  | zero => intro pos h; simp [gifWfNoICC] at h
  | succ n ih =>
    intro pos h f hf
    obtain ⟨f1, rfl⟩ : ∃ f1, f = f1 + 1 := ⟨f - 1, by omega⟩
    unfold gifWfNoICC at h
    unfold gifLoop
    split at h
    · simp at h
    · rename_i c hrb
      have hlt := readByte_lt hrb
      dsimp only
      by_cases h3b : c = 0x3b
      · rw [if_pos h3b]
      · rw [if_neg h3b] at h ⊢
        by_cases h2c : c = 0x2c
        · rw [if_pos h2c] at h ⊢
          split at h
          · simp at h
          · rename_i desc hdesc
            dsimp only at h
            generalize hP : (if (desc.get? 8).getD 0 / 128 % 2 = 1
              then pos + 1 + 9 + 3 * 2 ^ (1 + (desc.get? 8).getD 0 % 8)
              else pos + 1 + 9) = p3 at h ⊢
            have hp3 : pos + 1 + 9 ≤ p3 := by
              rw [← hP]
              split <;> omega
            split at h
            · simp at h
            · rename_i lzw hlzw
              split at h
              · simp at h
              · rename_i pos4 hskip
                have hgt := skipBlocks_gt hskip
                exact ih h (by omega)
        · rw [if_neg h2c] at h ⊢
          by_cases h21 : c = 0x21
          · rw [if_pos h21] at h ⊢
            split at h
            · simp at h
            · rename_i ext hext
              by_cases hff : ext = 0xff
              · rw [if_pos hff] at h ⊢
                split at h
                · simp at h
                · rename_i blk p1 hblk
                  split at h
                  · rename_i hcond
                    obtain ⟨hlen, hne⟩ := hcond
                    rw [if_neg (by simp [hlen]), if_neg hne]
                    split at h
                    · simp at h
                    · rename_i p2 hskip
                      have hgt1 := readBlockG_gt hblk
                      have hgt2 := skipBlocks_gt hskip
                      exact ih h (by omega)
                  · simp at h
              · rw [if_neg hff] at h ⊢
                split at h
                · simp at h
                · rename_i p1 hskip
                  have hgt := skipBlocks_gt hskip
                  exact ih h (by omega)
          · rw [if_neg h21] at h
            simp at h

/-- An aligned marker needs no extra scanning. -/
lemma alignScan_ff (b1 : Nat) (rest : List Nat) :
    alignScan 0xff b1 rest = some (b1, 0) := by
  unfold alignScan
  simp

/-- Modelled from the spec (§4.4): the segment stream starting at `pos`
(with recorded component count `nc`) is a well-formed, marker-aligned
sequence of segments that reaches the end-of-image marker, and no APP2
segment in it carries the `ICC_PROFILE` signature.  Segments covered:
restart markers, a JFIF APP0, non-ICC APP2 segments, one SOF with a
recognized component count, scans, and generic skippable segments. -/
def jpgWfNoICC (input : List Nat) : Nat → Nat → Nat → Bool
  | 0, _, _ => false
  | fuel + 1, pos, nc =>
    match readByte input pos, readByte input (pos + 1) with
    | some b0, some m =>
      if b0 = 0xff then
        if m = 0xd9 then true
        else if 0xd0 ≤ m ∧ m ≤ 0xd7 then jpgWfNoICC input fuel (pos + 2) nc
        else
          match readByte input (pos + 2), readByte input (pos + 2 + 1) with
          | some l0, some l1 =>
            let segLen : Int := ((l0 * 256 + l1 : Nat) : Int) - 2
            if m = 0xe0 then
              if 5 < segLen ∧ readBytes input (pos + 2 + 2) 5 =
                  some [0x4a, 0x46, 0x49, 0x46, 0x00]
              then jpgWfNoICC input fuel (pos + 2 + 2 + segLen.toNat) nc
              else false
            else if m = 0xe2 then
              if 14 ≤ segLen then
                match readBytes input (pos + 2 + 2) 14 with
                | none => false
                | some hdr =>
                  if hdr.take 11 ≠ iccProfileSig
                  then jpgWfNoICC input fuel (pos + 2 + 2 + segLen.toNat) nc
                  else false
              else if 0 ≤ segLen
              then jpgWfNoICC input fuel (pos + 2 + 2 + segLen.toNat) nc
              else false
            else if m = 0xc0 ∨ m = 0xc1 ∨ m = 0xc2 then
              if nc = 0 ∧ (segLen = 9 ∨ segLen = 15 ∨ segLen = 18)
              then jpgWfNoICC input fuel (pos + 2 + 2 + segLen.toNat)
                (if segLen = 9 then 1 else if segLen = 15 then 3 else 4)
              else false
            else if m = 0xda then
              if nc ≠ 0 ∧ 6 ≤ segLen ∧ segLen ≤ 4 + 2 * (nc : Int) ∧
                  segLen % 2 = 0 ∧ pos + 2 + 2 + segLen.toNat ≤ input.length then
                match sosScanL 0 (input.drop (pos + 2 + 2 + segLen.toNat)) with
                | none => false
                | some k =>
                  jpgWfNoICC input fuel (pos + 2 + 2 + (segLen.toNat + k - 2)) nc
              else false
            else
              if 0 ≤ segLen
              then jpgWfNoICC input fuel (pos + 2 + 2 + segLen.toNat) nc
              else false
          | _, _ => false
      else false
    | _, _ => false

/-- On any segment stream accepted by the profile-free grammar, the
segment loop of the JPEG walker returns an empty result with no error,
for every sufficient fuel and any accumulator state. -/
lemma jpgWfNoICC_loop {input : List Nat} :
    ∀ {n pos nc : Nat}, jpgWfNoICC input n pos nc = true →
      ∀ {f : Nat}, input.length - pos < f →
      ∀ (data : List Nat) (last max : Nat),
        jpgLoop input f ⟨pos, data, last, max, nc⟩ = .ok none := by
  intro n
  induction n with
  | zero => intro pos nc h; simp [jpgWfNoICC] at h
  | succ n ih =>
    intro pos nc h f hf data last max
    obtain ⟨f1, rfl⟩ : ∃ f1, f = f1 + 1 := ⟨f - 1, by omega⟩
    unfold jpgWfNoICC at h
    unfold jpgLoop
    split at h
    · rename_i b0 m hb0 hm
      have hlt := readByte_lt hb0
      by_cases hff : b0 = 0xff
      · subst hff
        rw [if_pos rfl] at h
        rw [hb0, hm]
        dsimp only
        rw [alignScan_ff]
        dsimp only
        simp only [Nat.add_zero]
        by_cases heoi : m = 0xd9
        · rw [if_pos heoi] at h ⊢
        · rw [if_neg heoi] at h ⊢
          by_cases hrst : 0xd0 ≤ m ∧ m ≤ 0xd7
          · rw [if_pos hrst] at h ⊢
            exact ih h (by omega) data last max
          · rw [if_neg hrst] at h ⊢
            split at h
            · rename_i l0 l1 hl0 hl1
              dsimp only at h
              by_cases happ0 : m = 0xe0
              · rw [if_pos happ0] at h ⊢
                split at h
                · rename_i hcond
                  obtain ⟨hgt5, hjfif⟩ := hcond
                  rw [if_pos hgt5, hjfif]
                  dsimp only
                  rw [if_neg (by decide)]
                  rw [if_pos (by omega),
                    seekCur_nonneg (by omega : (0:Int) ≤ ((l0 * 256 + l1 : Nat) : Int) - 2 - 5)]
                  rw [show pos + 2 + 2 + 5 + (((l0 * 256 + l1 : Nat) : Int) - 2 - 5).toNat
                    = pos + 2 + 2 + (((l0 * 256 + l1 : Nat) : Int) - 2).toNat from by omega]
                  exact ih h (by omega) data last max
                · simp at h
              · rw [if_neg happ0] at h ⊢
                by_cases happ2 : m = 0xe2
                · rw [if_pos happ2] at h ⊢
                  by_cases h14 : (14:Int) ≤ ((l0 * 256 + l1 : Nat) : Int) - 2
                  · rw [if_pos h14] at h
                    rw [if_pos (by omega : ((l0 * 256 + l1 : Nat) : Int) - 2 ≥ 14)]
                    split at h
                    · simp at h
                    · rename_i hdr hhdr
                      by_cases hsig : hdr.take 11 = iccProfileSig
                      · rw [if_neg (by simp [hsig])] at h
                        simp at h
                      · rw [if_pos (by simp [hsig])] at h
                        rw [if_neg hsig]
                        rw [show (if ((l0 * 256 + l1 : Nat) : Int) - 2 - 14 > 0
                            then seekCur (pos + 2 + 2 + 14) (((l0 * 256 + l1 : Nat) : Int) - 2 - 14)
                            else pos + 2 + 2 + 14)
                          = pos + 2 + 2 + (((l0 * 256 + l1 : Nat) : Int) - 2).toNat from by
                            split
                            · rw [seekCur_nonneg (by omega)]
                              omega
                            · omega]
                        exact ih h (by omega) data last max
                  · rw [if_neg h14] at h
                    rw [if_neg (by omega : ¬(((l0 * 256 + l1 : Nat) : Int) - 2 ≥ 14))]
                    by_cases h0 : (0:Int) ≤ ((l0 * 256 + l1 : Nat) : Int) - 2
                    · rw [if_pos h0] at h
                      rw [show (if ((l0 * 256 + l1 : Nat) : Int) - 2 > 0
                          then seekCur (pos + 2 + 2) (((l0 * 256 + l1 : Nat) : Int) - 2)
                          else pos + 2 + 2)
                        = pos + 2 + 2 + (((l0 * 256 + l1 : Nat) : Int) - 2).toNat from by
                          split
                          · rw [seekCur_nonneg (by omega)]
                          · omega]
                      exact ih h (by omega) data last max
                    · rw [if_neg h0] at h
                      simp at h
                · rw [if_neg happ2] at h ⊢
                  by_cases hsof : m = 0xc0 ∨ m = 0xc1 ∨ m = 0xc2
                  · rw [if_pos hsof] at h ⊢
                    split at h
                    · rename_i hcond
                      obtain ⟨hnc0, hlen3⟩ := hcond
                      subst hnc0
                      have hs0 : (0:Int) ≤ ((l0 * 256 + l1 : Nat) : Int) - 2 := by
                        rcases hlen3 with h9 | h9 | h9 <;> omega
                      have hproc : processSOF 0 (((l0 * 256 + l1 : Nat) : Int) - 2) =
                          .ok (if ((l0 * 256 + l1 : Nat) : Int) - 2 = 9 then 1
                            else if ((l0 * 256 + l1 : Nat) : Int) - 2 = 15 then 3 else 4) := by
                        unfold processSOF
                        rw [if_neg (by omega)]
                        rcases hlen3 with h9 | h9 | h9 <;> rw [h9] <;> simp
                      rw [hproc]
                      dsimp only
                      rw [seekCur_nonneg hs0]
                      exact ih h (by omega) data last max
                    · simp at h
                  · rw [if_neg hsof] at h ⊢
                    by_cases hsos : m = 0xda
                    · rw [if_pos hsos] at h ⊢
                      split at h
                      · rename_i hcond
                        obtain ⟨hnc, h6, hub, hev, hbound⟩ := hcond
                        split at h
                        · simp at h
                        · rename_i k hscan
                          have hsosOk : skipSOS input (pos + 2 + 2) nc
                              (((l0 * 256 + l1 : Nat) : Int) - 2) =
                              .ok ((((l0 * 256 + l1 : Nat) : Int) - 2).toNat + k - 2,
                                pos + 2 + 2 + ((((l0 * 256 + l1 : Nat) : Int) - 2).toNat + k - 2)) := by
                            have hrd : readBytes input (pos + 2 + 2)
                                ((((l0 * 256 + l1 : Nat) : Int) - 2).toNat) =
                                some ((input.drop (pos + 2 + 2)).take
                                  ((((l0 * 256 + l1 : Nat) : Int) - 2).toNat)) := by
                              unfold readBytes
                              rw [if_neg (by omega), if_pos (by omega)]
                            unfold skipSOS
                            rw [if_neg hnc,
                              if_neg (by push_neg; exact ⟨by omega, by omega, by omega⟩)]
                            simp only [hrd, hscan]
                          rw [hsosOk]
                          have hk := sosScanL_pos hscan
                          exact ih h (by omega) data last max
                      · simp at h
                    · rw [if_neg hsos] at h ⊢
                      by_cases h0 : (0:Int) ≤ ((l0 * 256 + l1 : Nat) : Int) - 2
                      · rw [if_pos h0] at h
                        rw [seekCur_nonneg h0]
                        exact ih h (by omega) data last max
                      · rw [if_neg h0] at h
                        simp at h
            · simp at h
      · rw [if_neg hff] at h
        simp at h
    · simp at h

/-- A structurally well-formed JPEG — SOI, a valid grayscale SOF0, a
scan with stuffed entropy data, one ICC APP2 segment declaring 2 chunks
(only chunk 1 present, 2 payload bytes), then EOI. -/
def exJpgIncompleteICC : List Nat :=
  [0xff, 0xd8,
   0xff, 0xc0, 0x00, 0x0b, 8, 0, 1, 0, 1, 1, 1, 0x11, 0,
   0xff, 0xda, 0x00, 0x08, 1, 1, 0, 0, 0, 0,
   0x12, 0xff, 0x00, 0x34,
   0xff, 0xe2, 0x00, 0x12,
   0x49, 0x43, 0x43, 0x5f, 0x50, 0x52, 0x4f, 0x46, 0x49, 0x4c, 0x45, 0x00,
   1, 2, 0xaa, 0xbb,
   0xff, 0xd9]

/-- C9 counterexample: this JPEG contains no *complete* ICC APP2
segment set (one segment with index 1 of a declared total of 2), and it
ends with a proper EOI marker, yet the walker does not return an empty
result: after copying the segment's 2 payload bytes it seeks forward by
the payload length again, jumps past the EOI, and fails with a read
error. -/
theorem jpg_incomplete_icc_set_errors :
    exJpgIncompleteICC.get? 45 = some 1 ∧
    exJpgIncompleteICC.get? 46 = some 2 ∧
    exJpgIncompleteICC.get? 49 = some 0xff ∧
    exJpgIncompleteICC.get? 50 = some 0xd9 ∧
    loadICCfromJPG exJpgIncompleteICC = .error .eof := by
  decide

/-- C9 amended: for each of the four formats, a well-formed input whose
profile-carrying structure is absent yields an empty result and no
error — where for JPEG "absent" must be read as "no ICC-signed APP2
segment at all" (an incomplete ICC segment set can instead produce a
read error, as the counterexample shows).  TIFF: a parsed header and
IFD chain without tag 0x8773.  PNG: a parsed chunk sequence without an
`iCCP` chunk.  GIF: a block stream in the profile-free grammar.  JPEG: a
segment stream in the profile-free grammar. -/
theorem profile_free_wellformed_empty :
    (∀ (input : List Nat) (endian : ByteOrder) (c0 c1 off p1 : Nat) (ifd : TifIFD),
      readByte input 0 = some c0 → readByte input 1 = some c1 →
      ((c0 = 0x49 ∧ c1 = 0x49 ∧ endian = .le) ∨
       (c0 = 0x4d ∧ c1 = 0x4d ∧ endian = .be)) →
      readU16 input endian 2 = some 42 →
      readU32 input endian 4 = some off →
      readIFDs input endian (input.length + 1) ⟨0, [], 0⟩ off 8 = .ok (ifd, p1) →
      (∀ d ∈ ifd.dirEntry, d.tag ≠ 0x8773) →
      loadICCfromTIFF input = .ok none) ∧
    (∀ (inflate : List Nat → Option (List Nat)) (input : List Nat) (img : Png),
      parsePNG input = .ok img →
      (∀ c ∈ img.chunks, c.type ≠ iccpType) →
      loadICCfromPNGWithName inflate input = .ok (none, [])) ∧
    (∀ (input : List Nat) (n : Nat),
      13 ≤ input.length →
      gifVersionOk ((input.get? 0).getD 0) ((input.get? 1).getD 0)
        ((input.get? 2).getD 0) ((input.get? 3).getD 0) ((input.get? 4).getD 0)
        ((input.get? 5).getD 0) →
      gifWfNoICC input n (if ((input.get? 10).getD 0) / 128 % 2 = 1
        then 13 + 3 * 2 ^ (1 + ((input.get? 10).getD 0) % 8) else 13) = true →
      loadICCfromGIF input = .ok none) ∧
    (∀ (input : List Nat) (n : Nat),
      readByte input 0 = some 0xff → readByte input 1 = some 0xd8 →
      jpgWfNoICC input n 2 0 = true →
      loadICCfromJPG input = .ok none) := by
  refine ⟨?_, ?_, ?_, ?_⟩
  · intro input endian c0 c1 off p1 ifd h0 h1 hE hmag hoff hifds hno
    unfold loadICCfromTIFF
    rw [h0, h1]
    dsimp only
    rcases hE with ⟨rfl, rfl, rfl⟩ | ⟨rfl, rfl, rfl⟩
    · rw [if_pos (by decide)]
      dsimp only
      rw [hmag, hoff]
      dsimp only
      rw [if_neg (by decide), hifds]
      exact scanForICCTag_none hno
    · rw [if_neg (by decide), if_pos (by decide)]
      dsimp only
      rw [hmag, hoff]
      dsimp only
      rw [if_neg (by decide), hifds]
      exact scanForICCTag_none hno
  · intro inflate input img hparse hno
    have hloop : parsePNGLoop input (input.length + 1) 8 [] [] = .ok img := by
      unfold parsePNG at hparse
      split at hparse
      · simp at hparse
      · split at hparse
        · simp at hparse
        · exact hparse
    have hfind : assocFind img.byType iccpType = none := by
      by_contra hne
      obtain ⟨c, hc, hct⟩ := parsePNGLoop_index_sound iccpType hloop
        (fun hne0 => absurd rfl hne0) hne
      exact hno c hc hct
    unfold loadICCfromPNGWithName
    rw [hparse]
    dsimp only
    rw [hfind]
    rfl
  · intro input n hlen hv hwf
    unfold loadICCfromGIF
    rw [if_neg (by omega)]
    dsimp only
    rw [if_pos hv]
    exact gifWfNoICC_loop hwf (by omega)
  · intro input n h0 h1 hwf
    unfold loadICCfromJPG
    rw [h0, h1]
    dsimp only
    rw [if_pos ⟨rfl, rfl⟩]
    exact jpgWfNoICC_loop hwf (by omega) [] 0 0

/-- A little-endian TIFF with one IFD holding one non-ICC entry. -/
def exTifPlain : List Nat :=
  [0x49, 0x49, 42, 0, 8, 0, 0, 0,
   1, 0, 0x00, 0x01, 3, 0, 1, 0, 0, 0, 0, 0, 0, 0, 0, 0, 0, 0]

/-- A PNG with only an IEND chunk. -/
def exPngPlain : List Nat :=
  [0x89, 0x50, 0x4e, 0x47, 0x0d, 0x0a, 0x1a, 0x0a,
   0, 0, 0, 0, 0x49, 0x45, 0x4e, 0x44, 0, 0, 0, 0]

/-- C9 amended, witness: one profile-free fixture per format, each
returning an empty result with no error. -/
theorem profile_free_wellformed_empty_witness :
    loadICCfromTIFF exTifPlain = .ok none ∧
    loadICCfromPNGWithName (fun _ => none) exPngPlain = .ok (none, []) ∧
    loadICCfromGIF exGifPlain = .ok none ∧
    loadICCfromJPG exJpgPlain = .ok none := by
  refine ⟨?_, ?_, ?_, ?_⟩
  · exact profile_free_wellformed_empty.1 exTifPlain .le 0x49 0x49 8 26
      ⟨1, [⟨256, 3, 1, 0⟩], 0⟩ (by decide) (by decide) (Or.inl ⟨rfl, rfl, rfl⟩)
      (by decide) (by decide) (by decide) (by decide)
  · exact profile_free_wellformed_empty.2.1 (fun _ => none) exPngPlain
      ⟨[⟨0, iendType, 16⟩], [(iendType, [0])]⟩ (by decide) (by decide)
  · exact profile_free_wellformed_empty.2.2.1 exGifPlain 1 (by decide)
      (by decide) (by decide)
  · exact profile_free_wellformed_empty.2.2.2 exJpgPlain 1 (by decide)
      (by decide) (by decide)

end Imageicc
